import Mathlib

/-!
Verification of the Resilient Tool-Augmented Orchestration Core of the
`agent-base` repository, as a shallow embedding in Lean 4.

Each section embeds one source module (translated directly from the
TypeScript source) and proves the specified properties about it:

* `src/model/retry.ts` — error classification, exponential backoff,
  and the `withRetry` wrapper (modelled as a pure trace-producing
  function over an abstract sequence of operation results).
* `src/utils/context.ts` — the `ContextManager` store: filename
  generation, pointer copying, keyword-based relevance selection and
  fault-tolerant context loading.
* `src/tools/workspace.ts` — workspace path resolution and symlink-safe
  validation (parametrised over an abstract `node:path` / `node:fs`
  model).
* `src/tools/write.ts` — the write tool's guarded, atomic-write
  execution path over an explicit filesystem state.

JavaScript numbers are modelled as `Nat` (all quantities involved are
non-negative integer milliseconds, byte counts or counters), fallible
external calls as `Option` / `Except`, and `Math.random` as an explicit
function parameter supplying the random scaling.
-/

namespace AgentBase


/-! ## Model layer: `src/model/retry.ts` -/

/-- Modelled from the spec: `ErrorCode`, the closed enumeration of model
error codes (`src/model/types.ts` is not part of the snapshot; the
enumeration is given verbatim in the specification and exercised by the
retry tests). -/
inductive ModelErrorCode where
  | PROVIDER_NOT_CONFIGURED
  | PROVIDER_NOT_SUPPORTED
  | AUTHENTICATION_ERROR
  | RATE_LIMITED
  | MODEL_NOT_FOUND
  | CONTEXT_LENGTH_EXCEEDED
  | NETWORK_ERROR
  | TIMEOUT
  | INVALID_RESPONSE
  | UNKNOWN
deriving DecidableEq, Repr

/-- Modelled from the spec: `ModelResponse<T>` is a discriminated result,
either `{success:true, result, message}` or
`{success:false, error, message, retryAfterMs?}`. -/
inductive ModelResponse (T : Type) where
  | success (result : T) (message : String)
  | failure (error : ModelErrorCode) (message : String) (retryAfterMs : Option Nat)
deriving DecidableEq, Repr

/-- Discriminant of a `ModelResponse` (the `result.success` field). -/
def ModelResponse.isSuccess {T : Type} : ModelResponse T → Bool
  | .success .. => true
  | .failure .. => false

/-- Set of error codes that are safe to retry (`RETRYABLE_ERROR_CODES`
in `src/model/retry.ts`). -/
def RETRYABLE_ERROR_CODES : List ModelErrorCode :=
  [.RATE_LIMITED, .NETWORK_ERROR, .TIMEOUT]

/-- Check if an error code is retryable (`isRetryableError`). -/
def isRetryableError (code : ModelErrorCode) : Bool :=
  RETRYABLE_ERROR_CODES.contains code

/-- Calculate delay for exponential backoff with optional jitter
(`calculateDelay`).  `jitterFn` models the random scaling
`Math.floor(capped * (1 + (Math.random()*2-1)*DEFAULT_JITTER_FACTOR))`;
it is an explicit parameter because `Math.random` is nondeterministic.
The non-jittered path never consults it. -/
def calculateDelay (jitterFn : Nat → Nat) (attempt baseDelayMs maxDelayMs : Nat)
    (enableJitter : Bool) : Nat :=
  let exponentialDelay := baseDelayMs * 2 ^ attempt
  let cappedDelay := min exponentialDelay maxDelayMs
  if !enableJitter then
    cappedDelay
  else
    max 1 (jitterFn cappedDelay)

/-- Context passed to the `onRetry` observer callback (`RetryContext`). -/
structure RetryContext where
  attempt : Nat
  maxRetries : Nat
  delayMs : Nat
  error : ModelErrorCode
  message : String
deriving DecidableEq, Repr

/-- Observable trace of one `withRetry` call: the returned response, the
number of invocations of the wrapped operation, the arguments of each
`onRetry` callback in order, and the duration of each `sleep` in order. -/
structure RetryTrace (T : Type) where
  result : ModelResponse T
  calls : Nat
  retries : List RetryContext
  sleeps : List Nat
deriving Repr

/-- Loop body of `withRetry` (the `for (let attempt = 0; attempt <= maxRetries; ...)`
loop in `src/model/retry.ts`).  The operation is modelled as the sequence
of responses its successive invocations produce (`op i` is the result of
the `i`-th invocation).  `fuel` is the number of loop iterations still
permitted (`maxRetries + 1 - attempt`); exhausting it corresponds to
falling out of the loop, where the source returns its unreachable
fallback `UNKNOWN` response. -/
def withRetryAux {T : Type} (jitterFn : Nat → Nat) (op : Nat → ModelResponse T)
    (maxRetries baseDelayMs maxDelayMs : Nat) (enableJitter : Bool) :
    Nat → Nat → RetryTrace T
  | _, 0 =>
    ⟨.failure .UNKNOWN "Retry logic reached unreachable state" none, 0, [], []⟩
  | attempt, fuel + 1 =>
    let result := op attempt
    match result with
    | .success r m => ⟨.success r m, 1, [], []⟩
    | .failure error message retryAfterMs =>
      if !isRetryableError error then
        ⟨.failure error message retryAfterMs, 1, [], []⟩
      else if attempt ≥ maxRetries then
        ⟨.failure error message retryAfterMs, 1, [], []⟩
      else
        let delayMs := calculateDelay jitterFn attempt baseDelayMs maxDelayMs enableJitter
        let context : RetryContext := ⟨attempt + 1, maxRetries, delayMs, error, message⟩
        let rest := withRetryAux jitterFn op maxRetries baseDelayMs maxDelayMs enableJitter
          (attempt + 1) fuel
        ⟨rest.result, rest.calls + 1, context :: rest.retries, delayMs :: rest.sleeps⟩

/-- Wrap an operation with retry logic (`withRetry`), producing the
observable trace of the call. -/
def withRetry {T : Type} (jitterFn : Nat → Nat) (op : Nat → ModelResponse T)
    (maxRetries baseDelayMs maxDelayMs : Nat) (enableJitter : Bool) : RetryTrace T :=
  withRetryAux jitterFn op maxRetries baseDelayMs maxDelayMs enableJitter 0 (maxRetries + 1)

/-- The response `r` is a failure carrying error code `c`. -/
def failsWith {T : Type} (r : ModelResponse T) (c : ModelErrorCode) : Prop :=
  ∃ msg retryAfterMs, r = .failure c msg retryAfterMs

/-- Operation that always fails with `TIMEOUT` (witness input). -/
def opAllFail : Nat → ModelResponse String :=
  fun _ => .failure .TIMEOUT "timeout" none

/-- Operation that fails once with `TIMEOUT` and then succeeds (witness
input). -/
def opSucceedsSecond : Nat → ModelResponse String :=
  fun i => if i = 0 then .failure .TIMEOUT "timeout" none else .success "ok" "OK"

/-- Operation that always fails with `AUTHENTICATION_ERROR` (witness
input). -/
def opAuthFail : Nat → ModelResponse String :=
  fun _ => .failure .AUTHENTICATION_ERROR "bad key" none

/-! ## Decimal rendering

`natToString` models the JavaScript conversion of a non-negative integer
to its decimal string (`String(n)` and template-literal interpolation),
used for timestamps and counters in context filenames. -/

/-- Digit characters of a positive natural number, most significant
first; `fuel` bounds the recursion depth (any `fuel ≥ n` is exact). -/
def natToStringAux : Nat → Nat → List Char
  | 0, _ => []
  | fuel + 1, n =>
    if n = 0 then [] else natToStringAux fuel (n / 10) ++ [Nat.digitChar (n % 10)]

/-- Decimal string of a natural number, most significant digit first
(model of the JavaScript `String(n)` conversion). -/
def natToString (n : Nat) : String :=
  if n = 0 then "0" else (natToStringAux n n).asString

/-- Operation that fails once with `RATE_LIMITED` carrying the provider
hint `retryAfterMs = 5000`, then succeeds — the input of the repository's
own test `uses retryAfterMs from error response when available`. -/
def opRateLimitedWithHint : Nat → ModelResponse String :=
  fun i =>
    if i = 0 then .failure .RATE_LIMITED "Rate limited" (some 5000)
    else .success "result" "OK"

/-! ## Context store: `src/utils/context.ts`

The `ContextManager` persists tool outputs to disk and keeps lightweight
in-memory pointers.  JavaScript values of type `unknown` inside `args`
are modelled by `JsValue`; `JSON.stringify` is an abstract function
parameter (`stringify`); `Date.now()`, `new Date().toISOString()` and
the `Math.random` suffix are per-call parameters supplied by the
environment. -/

/-- A JavaScript value stored in a tool-argument object. -/
inductive JsValue where
  | str (s : String)
  | num (n : Int)
  | other (tag : String)
deriving DecidableEq, Repr

/-- A JavaScript `Record<string, unknown>` of tool arguments, as an
ordered list of fields. -/
abbrev Args := List (String × JsValue)

/-- Lightweight pointer to stored context (`ContextPointer`). -/
structure ContextPointer where
  filepath : String
  filename : String
  toolName : String
  toolDescription : String
  args : Args
  taskId : Option Nat
  queryId : Option String
deriving DecidableEq, Repr

/-- Full context data stored on disk (`StoredContext`). -/
structure StoredContext where
  toolName : String
  toolDescription : String
  args : Args
  timestamp : String
  taskId : Option Nat
  queryId : Option String
  result : JsValue
deriving DecidableEq, Repr

/-- Split a character list at every separator character, keeping empty
segments (the behaviour of `String.prototype.split` on single
separators; used to model the JavaScript splits in this module). -/
def splitOnPred (p : Char → Bool) : List Char → List (List Char)
  | [] => [[]]
  | c :: cs =>
    match splitOnPred p cs with
    | [] => [[]]
    | w :: ws => if p c then [] :: w :: ws else (c :: w) :: ws

/-- Model of `String.prototype.startsWith`: prefix test on the character
sequences. -/
def strStartsWith (s pre : String) : Bool :=
  pre.data.isPrefixOf s.data

/-- Separator class of the keyword-splitting regular expression in
`extractKeywords` (whitespace and the listed punctuation). -/
def isKeywordSeparator (c : Char) : Bool :=
  c.isWhitespace || c == '-' || c == '_' || c == '.' || c == ',' || c == ';' ||
  c == ':' || c == '!' || c == '?' || c == '\'' || c == '\"' || c == '(' ||
  c == ')' || c == '[' || c == ']' || c == '\x7b' || c == '\x7d'

/-- Extract keywords from text for relevance matching
(`extractKeywords`): lowercase, split on separators, keep only words of
length greater than 2.  (The source splits on runs of separators; the
empty words produced by splitting on single separators are removed by
the same length filter.) -/
def extractKeywords (text : String) : List String :=
  ((splitOnPred isKeywordSeparator (text.data.map Char.toLower)).map List.asString).filter
    (fun word => decide (2 < word.length))

/-- Keyword-overlap score of one pointer description against the query
keywords (the `score` accumulation loop of `selectRelevantContexts`). -/
def keywordScore (queryKeywords : List String) (toolDescription : String) : Nat :=
  let descKeywords := extractKeywords toolDescription
  queryKeywords.countP (fun keyword => descKeywords.contains keyword)

/-- Select relevant contexts for a query using keyword matching
(`selectRelevantContexts`).  `List.mergeSort` models the stable
`Array.prototype.sort` with comparator `(a, b) => b.score - a.score`. -/
def selectRelevantContexts (query : String) (availablePointers : List ContextPointer) :
    List String :=
  if availablePointers.length = 0 then []
  else
    let queryKeywords := extractKeywords query
    if queryKeywords.length = 0 then
      availablePointers.map (fun p => p.filepath)
    else
      let scored := availablePointers.map (fun pointer =>
        (pointer, keywordScore queryKeywords pointer.toolDescription))
      let matchList := scored.filter (fun s => decide (0 < s.2))
      if matchList.length = 0 then
        availablePointers.map (fun p => p.filepath)
      else
        let sorted := matchList.mergeSort (fun a b => decide (b.2 ≤ a.2))
        sorted.map (fun s => s.1.filepath)

/-- Relevance score of a pointer for a query (specification shorthand
for the score `selectRelevantContexts` computes per pointer). -/
def pointerScore (query : String) (p : ContextPointer) : Nat :=
  keywordScore (extractKeywords query) p.toolDescription

/-- Create a human-readable description of what the tool did
(`getToolDescription`): the first argument value when it is a non-empty
string (truncated to 50 characters), otherwise an argument-count
summary, otherwise just the tool name. -/
def getToolDescription (toolName : String) (args : Args) : String :=
  let argValues := args.map Prod.snd
  let countDesc :=
    if 0 < argValues.length then
      toolName ++ " with " ++ natToString argValues.length ++ " argument(s)"
    else toolName
  match argValues.head? with
  | some (JsValue.str s) =>
    if 0 < s.length then
      toolName ++ ": " ++ (if 50 < s.length then (s.take 50) ++ "..." else s)
    else countDesc
  | some _ => countDesc
  | none => countDesc

/-- Signed 32-bit coercion (`ToInt32`), the effect of the JavaScript
bitwise operators in `hashArgs`. -/
def toInt32 (n : Int) : Int := (n + 2 ^ 31) % 2 ^ 32 - 2 ^ 31

/-- Hash arguments to a short identifier (`hashArgs`): the
`(hash << 5) - hash + charCode` rolling hash over the JSON rendering,
rendered in lowercase hex and truncated to 8 characters. -/
def hashArgs (stringify : Args → String) (args : Args) : String :=
  let str := stringify args
  let hash := str.data.foldl (fun hash c => toInt32 (toInt32 (hash * 32) - hash + c.toNat)) 0
  ((Nat.toDigits 16 hash.natAbs).asString).take 8

/-- Replace every character outside `[0-9A-Za-z]` by an underscore
(the `toolName.replace(/[^\dA-Za-z]/g, _)` step of `generateFilename`). -/
def sanitizeToolName (toolName : String) : String :=
  (toolName.data.map (fun c => if c.isAlphanum then c else '_')).asString

/-- Generate a unique filename (`generateFilename`).  `timestamp` is the
`Date.now()` reading, `counter` the pre-increment `filenameCounter`
value, and `random` the `Math.random().toString(36).slice(2, 6)`
suffix, all supplied by the call environment. -/
def generateFilename (stringify : Args → String) (toolName : String) (args : Args)
    (timestamp counter : Nat) (random : String) : String :=
  sanitizeToolName toolName ++ "_" ++ hashArgs stringify args ++ "_" ++
    natToString timestamp ++ "_" ++ natToString counter ++ "_" ++ random ++ ".json"

/-- Replace the binding of key `k` (the effect of writing a file at an
existing or new path in the modelled context directory). -/
def setEntry {α : Type} (entries : List (String × α)) (k : String) (v : α) :
    List (String × α) :=
  (k, v) :: entries.filter (fun kv => !(kv.1 == k))

/-- Mutable state of a `ContextManager` together with its context
directory contents (`pointers`, `filenameCounter`, and the files the
manager has written). -/
structure ContextManagerState where
  pointers : List ContextPointer
  filenameCounter : Nat
  files : List (String × StoredContext)
deriving Repr

/-- Save tool execution results with metadata (`saveContext`): generate
a filename (post-incrementing the counter), write the `StoredContext`
file and append a `ContextPointer`.  Returns the filepath and the
updated state. -/
def saveContext (stringify : Args → String) (contextDir : String)
    (toolName : String) (args : Args) (result : JsValue)
    (taskId : Option Nat) (queryId : Option String)
    (now : Nat) (nowISO : String) (random : String)
    (s : ContextManagerState) : String × ContextManagerState :=
  let filename := generateFilename stringify toolName args now s.filenameCounter random
  let filepath := contextDir ++ "/" ++ filename
  let toolDescription := getToolDescription toolName args
  let storedContext : StoredContext :=
    ⟨toolName, toolDescription, args, nowISO, taskId, queryId, result⟩
  let pointer : ContextPointer :=
    ⟨filepath, filename, toolName, toolDescription, args, taskId, queryId⟩
  (filepath,
   ⟨s.pointers ++ [pointer], s.filenameCounter + 1, setEntry s.files filepath storedContext⟩)

/-- Filesystem and JSON interface `loadContexts` runs against:
`pathExists` models `fileSystem.exists`, `readFile` models
`fileSystem.readFile` (`none` for a read that throws) and `parseJson`
models `JSON.parse` (`none` for a parse that throws). -/
structure ContextIO where
  pathExists : String → Bool
  readFile : String → Option String
  parseJson : String → Option StoredContext

/-- The `for (const filepath of filepaths)` accumulation loop of
`loadContexts`: a missing file is skipped, and a throwing read or parse
is caught and skipped. -/
def loadContextsLoop (io : ContextIO) : List String → List StoredContext → List StoredContext
  | [], contexts => contexts
  | filepath :: rest, contexts =>
    match (if io.pathExists filepath then (io.readFile filepath).bind io.parseJson
           else none) with
    | some context => loadContextsLoop io rest (contexts ++ [context])
    | none => loadContextsLoop io rest contexts

/-- Load full context data from disk (`loadContexts`). -/
def loadContexts (io : ContextIO) (filepaths : List String) : List StoredContext :=
  loadContextsLoop io filepaths []

/-- The scored pointer list built inside `selectRelevantContexts`. -/
def scoredOf (query : String) (ps : List ContextPointer) : List (ContextPointer × Nat) :=
  ps.map (fun pointer => (pointer, keywordScore (extractKeywords query) pointer.toolDescription))

/-- The positively scored pointers (`matches`) built inside
`selectRelevantContexts`. -/
def matchesOf (query : String) (ps : List ContextPointer) : List (ContextPointer × Nat) :=
  (scoredOf query ps).filter (fun s => decide (0 < s.2))

/-! ## Workspace sandbox: `src/tools/workspace.ts`

The `node:path` module is modelled by the abstract `PathOps` record and
the `node:fs` realpath call by `FsOps` (`none` models a throwing
`realpath`).  String operations the source performs itself
(`split`, `startsWith`, concatenation) are modelled concretely. -/

/-- Modelled from the spec: `ToolErrorCode` (`src/tools/types.ts` is not
part of the snapshot; the codes are those produced in
`workspace.ts` itself and named in the specification). -/
inductive ToolErrorCode where
  | PERMISSION_DENIED
  | NOT_FOUND
  | VALIDATION_ERROR
  | IO_ERROR
  | UNKNOWN
deriving DecidableEq, Repr

/-- Error object returned by the path-resolution functions. -/
structure ToolError where
  error : ToolErrorCode
  message : String
deriving DecidableEq, Repr

/-- Abstract model of the pure `node:path` functions used by
`workspace.ts`. -/
structure PathOps where
  isAbsolute : String → Bool
  join : String → String → String
  resolve : String → String
  dirname : String → String
  sep : String

/-- Abstract model of the filesystem calls used by `workspace.ts`:
`realpath` returns `none` when the Node call throws, and
`realpathErrCode` is the `mapSystemErrorToToolError` code of the thrown
error for that path (`NOT_FOUND` for the usual `ENOENT`). -/
structure FsOps where
  realpath : String → Option String
  realpathErrCode : String → ToolErrorCode

/-- Resolve and validate a path within workspace boundaries
(`resolveWorkspacePath`). -/
def resolveWorkspacePath (po : PathOps) (relativePath workspace : String) :
    Except ToolError String :=
  let pathParts := (splitOnPred (fun c => c == '/' || c == '\\') relativePath.data).map
    List.asString
  if pathParts.contains ".." then
    .error ⟨.PERMISSION_DENIED,
      "Path contains .. component: " ++ relativePath ++ ". Path traversal is not allowed."⟩
  else
    let requestedPath :=
      if po.isAbsolute relativePath then relativePath else po.join workspace relativePath
    let resolved := po.resolve requestedPath
    let normalizedWorkspace := po.resolve workspace
    if !(strStartsWith resolved (normalizedWorkspace ++ po.sep)) &&
        resolved != normalizedWorkspace then
      .error ⟨.PERMISSION_DENIED, "Path resolves outside workspace: " ++ relativePath⟩
    else
      .ok resolved

/-- The `realWorkspace` computation of `resolveWorkspacePathSafe`: the
real path of the workspace, falling back to its normalized path when
`realpath` throws. -/
def realWorkspaceOf (po : PathOps) (fs : FsOps) (workspace : String) : String :=
  match fs.realpath workspace with
  | some rw => rw
  | none => po.resolve workspace

/-- The parent-directory walk of `resolveWorkspacePathSafe` for paths
that do not exist yet (the `while` loop).  `fuel` bounds the number of
iterations; the source loop terminates because `path.dirname` reaches a
fixed point at the filesystem root, which is the loop exit condition. -/
def parentWalk (po : PathOps) (fs : FsOps) (realWorkspace relativePath basicResult : String) :
    Nat → String → Except ToolError String
  | 0, _ => .ok basicResult
  | fuel + 1, checkPath =>
    if checkPath != realWorkspace && checkPath != po.dirname checkPath then
      let parentPath := po.dirname checkPath
      match fs.realpath parentPath with
      | some parentReal =>
        if !(strStartsWith parentReal (realWorkspace ++ po.sep)) &&
            parentReal != realWorkspace then
          .error ⟨.PERMISSION_DENIED,
            "Parent directory symlink resolves outside workspace: " ++ relativePath⟩
        else .ok basicResult
      | none => parentWalk po fs realWorkspace relativePath basicResult fuel parentPath
    else .ok basicResult

/-- Resolve and validate a path with symlink safety
(`resolveWorkspacePathSafe`). -/
def resolveWorkspacePathSafe (po : PathOps) (fs : FsOps) (fuel : Nat)
    (relativePath workspace : String) (requireExists : Bool) : Except ToolError String :=
  match resolveWorkspacePath po relativePath workspace with
  | .error e => .error e
  | .ok basicResult =>
    let realWorkspace := realWorkspaceOf po fs workspace
    match fs.realpath basicResult with
    | some realPath =>
      if !(strStartsWith realPath (realWorkspace ++ po.sep)) && realPath != realWorkspace then
        .error ⟨.PERMISSION_DENIED, "Symlink resolves outside workspace: " ++ relativePath⟩
      else .ok realPath
    | none =>
      if requireExists then
        .error ⟨fs.realpathErrCode basicResult, "Path does not exist: " ++ relativePath⟩
      else
        parentWalk po fs realWorkspace relativePath basicResult fuel basicResult

/-! ## Write tool: `src/tools/write.ts`

The write tool's `execute` function is modelled as a state transformer
over an explicit filesystem map.  The surrounding `Tool.define`
parameter-validation wrapper and the fire-and-forget `ctx.metadata`
progress call have no filesystem effect and are not part of the claims;
`resolveWorkspacePathSafe` is invoked through the abstract `resolvePath`
field. -/

/-- Default max bytes to write to a file, 1 MB
(`DEFAULT_MAX_WRITE_BYTES` in `src/tools/workspace.ts`). -/
def DEFAULT_MAX_WRITE_BYTES : Nat := 1024 * 1024

/-- Filesystem state seen by the write tool: file contents by path, and
the set of directories. -/
structure WriteFs where
  files : List (String × String)
  dirs : List String
deriving Repr

/-- Call environment of one `writeTool.execute` invocation:
the `AGENT_FILESYSTEM_WRITES_ENABLED` reading, the
`resolveWorkspacePathSafe` dependency, the `node:path` helpers, the
`Date.now()` reading, and whether the `fs.rename` and cleanup
`fs.unlink` calls succeed (both can fail; the source catches the unlink
failure and ignores it). -/
structure WriteEnv where
  writesEnabled : Bool
  resolvePath : String → Except ToolError String
  dirnameOf : String → String
  basenameOf : String → String
  now : Nat
  renameOk : Bool
  unlinkOk : Bool

/-- Result of one `execute` call: a returned `ToolResult` or a thrown
error. -/
inductive WriteOutcome where
  | ok (title : String) (output : String) (bytesWritten : Nat) (existedBefore : Bool)
  | thrown (message : String)
deriving DecidableEq, Repr

/-- Remove the entry at path `p` (the effect of `fs.unlink`). -/
def removeFile (files : List (String × String)) (p : String) : List (String × String) :=
  files.filter (fun kv => !(kv.1 == p))

/-- The temporary path `execute` writes before renaming:
`path.join(parentDir, "." + basename + ".tmp." + Date.now())`. -/
def tempPathOf (env : WriteEnv) (resolved : String) : String :=
  env.dirnameOf resolved ++ "/" ++
    ("." ++ env.basenameOf resolved ++ ".tmp." ++ natToString env.now)

/-- The `execute` function of the write tool (`writeTool` in
`src/tools/write.ts`): guard checks, then atomic write via temporary
file plus rename.  When the rename fails, the source attempts
`fs.unlink(tempPath)` inside a `try`/`catch` that ignores cleanup
errors, so the temporary file is removed only when that unlink itself
succeeds (`env.unlinkOk`). -/
def writeToolExecute (env : WriteEnv) (fs : WriteFs) (filePath content : String) :
    WriteOutcome × WriteFs :=
  if !env.writesEnabled then
    (.thrown
      "Filesystem writes are disabled. Set AGENT_FILESYSTEM_WRITES_ENABLED=true or update config.",
     fs)
  else
    let contentBytes := content.utf8ByteSize
    if contentBytes > DEFAULT_MAX_WRITE_BYTES then
      (.thrown ("Content size (" ++ natToString contentBytes ++
        " bytes) exceeds max write limit (" ++ natToString DEFAULT_MAX_WRITE_BYTES ++
        " bytes)"), fs)
    else
      match env.resolvePath filePath with
      | .error e => (.thrown e.message, fs)
      | .ok resolved =>
        let existedBefore := (fs.files.lookup resolved).isSome || fs.dirs.contains resolved
        let parentDir := env.dirnameOf resolved
        let fs1 : WriteFs := ⟨fs.files, parentDir :: fs.dirs⟩
        let tempPath := tempPathOf env resolved
        let fs2 : WriteFs := ⟨setEntry fs1.files tempPath content, fs1.dirs⟩
        if env.renameOk then
          let fs3 : WriteFs := ⟨setEntry (removeFile fs2.files tempPath) resolved content,
            fs2.dirs⟩
          let action := if existedBefore then "Overwrote" else "Created"
          (.ok (action ++ " " ++ filePath)
            (action ++ " " ++ filePath ++ " (" ++ natToString contentBytes ++ " bytes)")
            contentBytes existedBefore, fs3)
        else
          let fs3 : WriteFs :=
            if env.unlinkOk then ⟨removeFile fs2.files tempPath, fs2.dirs⟩ else fs2
          (.thrown ("Failed to write file: " ++ filePath), fs3)

namespace ContextAliasing


/-! ## Object aliasing in `ContextManager` (`src/utils/context.ts`)

The pointer accessors return `this.pointers.map((p) => ({...p, args: {...p.args}}))`
and `saveContext` stores `args: { ...args }`: fresh objects at every
call.  To state what "fresh" buys the caller, argument objects are given
explicit heap addresses: the heap is a list of argument objects, an
address is an index, allocation appends, and mutating an object is
`writeHeap` at its address.  The returned list and the returned pointer
records are values in this model (their freshness is the spread
`{...p}` itself); the claims proved here are about the `args` objects,
the only parts reachable through more than one reference. -/

/-- An argument object on the heap (the target of `p.args`). -/
structure ArgsObj where
  fields : List (String × JsValue)
deriving DecidableEq, Repr

/-- The heap of argument objects; an address is an index into the
list. -/
abbrev Heap := List ArgsObj

/-- Dereference an address. -/
def readHeap (h : Heap) (addr : Nat) : Option ArgsObj := h[addr]?

/-- Mutate the object at an address. -/
def writeHeap (h : Heap) (addr : Nat) (v : ArgsObj) : Heap := h.set addr v

/-- An in-memory `ContextPointer` whose `args` field is an address into
the heap. -/
structure PointerRef where
  filepath : String
  filename : String
  toolName : String
  toolDescription : String
  argsAddr : Nat
  taskId : Option Nat
  queryId : Option String
deriving DecidableEq, Repr

/-- A `ContextManager` together with the heap of argument objects its
pointers reference. -/
structure ManagerState where
  pointers : List PointerRef
  heap : Heap

/-- Allocate a shallow copy of the object at `addr` (the `{...args}`
spread): a fresh address holding the same fields. -/
def allocCopy (h : Heap) (addr : Nat) : Nat × Heap :=
  (h.length, h ++ [(readHeap h addr).getD ⟨[]⟩])

/-- Copy a pointer list, giving each returned pointer a freshly
allocated copy of its `args` object (the body of `getAllPointers`,
`getPointersForQuery` and `getPointersForTask`). -/
def copyPointers (h : Heap) : List PointerRef → List PointerRef × Heap
  | [] => ([], h)
  | p :: rest =>
    let (addr, h1) := allocCopy h p.argsAddr
    let (qs, h2) := copyPointers h1 rest
    ({ p with argsAddr := addr } :: qs, h2)

/-- Get all stored pointers, as copies (`getAllPointers`). -/
def getAllPointers (s : ManagerState) : List PointerRef × Heap :=
  copyPointers s.heap s.pointers

/-- Get pointers for a specific query, as copies
(`getPointersForQuery`). -/
def getPointersForQuery (queryId : String) (s : ManagerState) : List PointerRef × Heap :=
  copyPointers s.heap (s.pointers.filter (fun p => p.queryId == some queryId))

/-- Get pointers for a specific task, as copies (`getPointersForTask`). -/
def getPointersForTask (taskId : Nat) (s : ManagerState) : List PointerRef × Heap :=
  copyPointers s.heap (s.pointers.filter (fun p => p.taskId == some taskId))

/-- The pointer-append step of `saveContext`: the stored pointer holds a
fresh copy of the caller's `args` object. -/
def saveContext (toolName toolDescription filepath filename : String) (argsAddr : Nat)
    (taskId : Option Nat) (queryId : Option String) (s : ManagerState) : ManagerState :=
  let (copyAddr, heap1) := allocCopy s.heap argsAddr
  ⟨s.pointers ++
    [⟨filepath, filename, toolName, toolDescription, copyAddr, taskId, queryId⟩], heap1⟩

end ContextAliasing


/-! ## Concrete witness inputs -/

/-- Witness pointer whose description shares keywords with the witness
query. -/
def wpConfig : ContextPointer :=
  ⟨"/ctx/read_1.json", "read_1.json", "read", "read: config file contents", [], none, none⟩

/-- Witness pointer whose description shares no keyword with the witness
query. -/
def wpShell : ContextPointer :=
  ⟨"/ctx/shell_2.json", "shell_2.json", "shell", "shell: list running processes", [],
    none, none⟩

/-- Witness model of `node:path` for the sandbox claims: a POSIX-flavoured
path algebra on plain strings. -/
def wPathOps : PathOps where
  isAbsolute := fun s => strStartsWith s "/"
  join := fun a b => a ++ "/" ++ b
  resolve := fun s => s
  dirname := fun s => s
  sep := "/"

/-- Witness filesystem: the workspace `/ws` is real, and `/ws/link` is a
symbolic link whose target resolves to `/outside/secret`. -/
def wFsOps : FsOps where
  realpath := fun s =>
    if s == "/ws" then some "/ws"
    else if s == "/ws/link" then some "/outside/secret"
    else none
  realpathErrCode := fun _ => .NOT_FOUND

/-- Witness environment with filesystem writes disabled. -/
def wWriteEnvDisabled : WriteEnv :=
  ⟨false, fun s => .ok s, fun s => s, fun s => s, 0, true, true⟩

/-- Witness environment in which the rename step fails and the cleanup
unlink succeeds. -/
def wWriteEnvRenameFails : WriteEnv :=
  ⟨true, fun s => .ok ("/ws/" ++ s), fun _ => "/ws", fun s => s, 7, false, true⟩

/-- Witness environment in which the rename step fails and the ignored
cleanup unlink fails too (for example, the parent directory turned
read-only, failing both calls). -/
def wWriteEnvUnlinkFails : WriteEnv :=
  ⟨true, fun s => .ok ("/ws/" ++ s), fun _ => "/ws", fun s => s, 7, false, false⟩

/-- Witness filesystem containing the target file before the call. -/
def wWriteFs : WriteFs := ⟨[("/ws/a.txt", "old")], ["/ws"]⟩

/-- Witness manager state: one stored pointer whose `args` object lives
at heap address 0. -/
def wManagerState : ContextAliasing.ManagerState :=
  ⟨[⟨"/ctx/f.json", "f.json", "read", "read: x", 0, none, some "q"⟩],
   [⟨[("path", JsValue.str "/tmp/x")]⟩]⟩

/-! ## Theorems -/

/-- An error code is retryable exactly when it is `RATE_LIMITED`,
`NETWORK_ERROR` or `TIMEOUT`. -/
lemma isRetryableError_eq_false_iff (c : ModelErrorCode) :
    isRetryableError c = false ↔
      c ≠ .RATE_LIMITED ∧ c ≠ .NETWORK_ERROR ∧ c ≠ .TIMEOUT := by
  cases c <;> simp [isRetryableError, RETRYABLE_ERROR_CODES]

/-- When every remaining invocation fails with a retryable code, the loop
runs its full allowance of iterations and returns the final failure. -/
lemma withRetryAux_all_fail {T : Type} (jf : Nat → Nat) (op : Nat → ModelResponse T)
    (maxRetries base maxD : Nat) (jit : Bool) (c : ModelErrorCode)
    (hc : isRetryableError c = true) :
    ∀ fuel attempt, attempt + fuel = maxRetries →
      (∀ i, attempt ≤ i → i ≤ maxRetries → failsWith (op i) c) →
      (withRetryAux jf op maxRetries base maxD jit attempt (fuel + 1)).calls = fuel + 1 ∧
      (withRetryAux jf op maxRetries base maxD jit attempt (fuel + 1)).result =
        op maxRetries := by
  intro fuel
  induction fuel with
  | zero =>
    intro attempt hsum hfail
    obtain ⟨msg, ra, heq⟩ := hfail attempt (Nat.le_refl _) (by omega)
    have ha : attempt = maxRetries := by omega
    subst ha
    simp [withRetryAux, heq, hc]
  | succ f ih =>
    intro attempt hsum hfail
    obtain ⟨msg, ra, heq⟩ := hfail attempt (Nat.le_refl _) (by omega)
    have hlt : ¬ (attempt ≥ maxRetries) := by omega
    have hrec := ih (attempt + 1) (by omega) (fun i h1 h2 => hfail i (by omega) h2)
    simp [withRetryAux, heq, hc, hlt] at hrec ⊢
    exact hrec

/-- When the first success comes at absolute invocation index `s`, the
loop stops there, having made `s - attempt + 1` invocations. -/
lemma withRetryAux_first_success {T : Type} (jf : Nat → Nat) (op : Nat → ModelResponse T)
    (maxRetries base maxD : Nat) (jit : Bool) (c : ModelErrorCode)
    (hc : isRetryableError c = true) :
    ∀ fuel attempt s, attempt ≤ s → s ≤ maxRetries → s < attempt + fuel →
      (∀ i, attempt ≤ i → i < s → failsWith (op i) c) →
      (op s).isSuccess = true →
      (withRetryAux jf op maxRetries base maxD jit attempt fuel).calls = s - attempt + 1 ∧
      (withRetryAux jf op maxRetries base maxD jit attempt fuel).result = op s := by
  intro fuel
  induction fuel with
  | zero =>
    intro attempt s h1 _ h3 _ _
    omega
  | succ f ih =>
    intro attempt s h1 h2 h3 hfail hsucc
    rcases Nat.eq_or_lt_of_le h1 with heq | hlt
    · subst heq
      cases hres : op attempt with
      | success r m => simp [withRetryAux, hres]
      | failure e m ra => rw [hres] at hsucc; simp [ModelResponse.isSuccess] at hsucc
    · obtain ⟨msg, ra, heq⟩ := hfail attempt (Nat.le_refl _) hlt
      have hge : ¬ (attempt ≥ maxRetries) := by omega
      have hrec := ih (attempt + 1) s hlt h2 (by omega)
        (fun i hi1 hi2 => hfail i (by omega) hi2) hsucc
      have hcalls : s - (attempt + 1) + 1 + 1 = s - attempt + 1 := by omega
      rw [← hcalls]
      simp [withRetryAux, heq, hc, hge] at hrec ⊢
      exact ⟨by omega, hrec.2⟩

/-- C3: for every retryable error code and every `maxRetries ≥ 0`,
`withRetry` invokes the wrapped operation exactly `maxRetries + 1` times
when every invocation fails with that code, and exactly `n` times when
the operation first succeeds on its `n`-th invocation
(`n ≤ maxRetries + 1`), returning that success. -/
theorem withRetry_invocation_counts {T : Type} (jf : Nat → Nat) (op : Nat → ModelResponse T)
    (maxRetries base maxD : Nat) (jit : Bool) (c : ModelErrorCode)
    (hc : isRetryableError c = true) :
    ((∀ i, i ≤ maxRetries → failsWith (op i) c) →
      (withRetry jf op maxRetries base maxD jit).calls = maxRetries + 1) ∧
    (∀ n, 1 ≤ n → n ≤ maxRetries + 1 →
      (∀ i, i < n - 1 → failsWith (op i) c) →
      (op (n - 1)).isSuccess = true →
      (withRetry jf op maxRetries base maxD jit).calls = n ∧
      (withRetry jf op maxRetries base maxD jit).result = op (n - 1)) := by
  constructor
  · intro hfail
    exact (withRetryAux_all_fail jf op maxRetries base maxD jit c hc maxRetries 0
      (by omega) (fun i _ h2 => hfail i h2)).1
  · intro n hn1 hn2 hfail hsucc
    have h := withRetryAux_first_success jf op maxRetries base maxD jit c hc
      (maxRetries + 1) 0 (n - 1) (by omega) (by omega) (by omega)
      (fun i _ hi => hfail i hi) hsucc
    refine ⟨?_, h.2⟩
    rw [withRetry, h.1]
    omega

/-- Witness for C3 at `maxRetries = 2`: the always-failing operation is
invoked 3 times, and the succeed-on-second-attempt operation twice. -/
theorem withRetry_invocation_counts_witness :
    (withRetry id opAllFail 2 1000 10000 false).calls = 3 ∧
    (withRetry id opSucceedsSecond 2 1000 10000 false).calls = 2 := by
  constructor
  · exact (withRetry_invocation_counts id opAllFail 2 1000 10000 false .TIMEOUT rfl).1
      (fun i _ => ⟨"timeout", none, rfl⟩)
  · exact ((withRetry_invocation_counts id opSucceedsSecond 2 1000 10000 false .TIMEOUT
      rfl).2 2 (by decide) (by decide)
      (fun i hi => ⟨"timeout", none, by
        have : i = 0 := by omega
        subst this
        rfl⟩)
      (by decide)).1

/-- C4: for every error code outside `{RATE_LIMITED, NETWORK_ERROR, TIMEOUT}`,
`withRetry` invokes the operation exactly once and returns that failure
response unchanged as a value (no retry observer call, no sleep), for
any `maxRetries`. -/
theorem withRetry_non_retryable_single_call {T : Type} (jf : Nat → Nat)
    (op : Nat → ModelResponse T) (maxRetries base maxD : Nat) (jit : Bool)
    (c : ModelErrorCode) (msg : String) (ra : Option Nat)
    (hc : c ≠ .RATE_LIMITED ∧ c ≠ .NETWORK_ERROR ∧ c ≠ .TIMEOUT)
    (hop : op 0 = .failure c msg ra) :
    (withRetry jf op maxRetries base maxD jit).result = .failure c msg ra ∧
    (withRetry jf op maxRetries base maxD jit).calls = 1 ∧
    (withRetry jf op maxRetries base maxD jit).retries = [] ∧
    (withRetry jf op maxRetries base maxD jit).sleeps = [] := by
  have hret : isRetryableError c = false := (isRetryableError_eq_false_iff c).mpr hc
  simp [withRetry, withRetryAux, hop, hret]

/-- Witness for C4: an `AUTHENTICATION_ERROR` failure is returned after a
single invocation even with `maxRetries = 5`. -/
theorem withRetry_non_retryable_single_call_witness :
    (withRetry id opAuthFail 5 1000 10000 true).result =
      .failure .AUTHENTICATION_ERROR "bad key" none ∧
    (withRetry id opAuthFail 5 1000 10000 true).calls = 1 := by
  have h := withRetry_non_retryable_single_call id opAuthFail 5 1000 10000 true
    .AUTHENTICATION_ERROR "bad key" none (by decide) rfl
  exact ⟨h.1, h.2.1⟩

/-- C8: with jitter disabled, `calculateDelay` is deterministic (its
value does not depend on the random source) and equals
`min(base * 2 ^ attempt, max)`. -/
theorem calculateDelay_no_jitter_spec (jf jg : Nat → Nat) (attempt base maxD : Nat)
    (_hb : 0 < base) (_hm : 0 < maxD) :
    calculateDelay jf attempt base maxD false = min (base * 2 ^ attempt) maxD ∧
    calculateDelay jf attempt base maxD false = calculateDelay jg attempt base maxD false := by
  simp [calculateDelay]

/-- Witness for C8 at `attempt = 3`, `base = 1000`, `max = 10000`: the
delay is `8000` under any two random sources. -/
theorem calculateDelay_no_jitter_spec_witness :
    calculateDelay id 3 1000 10000 false = min (1000 * 2 ^ 3) 10000 ∧
    calculateDelay id 3 1000 10000 false = calculateDelay (fun n => n + 7) 3 1000 10000 false :=
  calculateDelay_no_jitter_spec id (fun n => n + 7) 3 1000 10000 (by decide) (by decide)

/-- The fuelled digit rendering agrees with `Nat.digits`. -/
lemma natToStringAux_eq_digits : ∀ fuel n, n ≤ fuel →
    natToStringAux fuel n = (Nat.digits 10 n).reverse.map Nat.digitChar := by
  intro fuel
  induction fuel with
  | zero =>
    intro n hn
    have h0 : n = 0 := by omega
    subst h0
    simp [natToStringAux]
  | succ f ih =>
    intro n hn
    by_cases h0 : n = 0
    · subst h0
      simp [natToStringAux]
    · have hdiv : n / 10 < n := Nat.div_lt_self (Nat.pos_of_ne_zero h0) (by norm_num)
      rw [natToStringAux, if_neg h0, ih (n / 10) (by omega)]
      rw [Nat.digits_def' (by norm_num : (1 : ℕ) < 10) (Nat.pos_of_ne_zero h0)]
      simp

/-- Expression of `natToString` in terms of `Nat.digits`. -/
lemma natToString_eq (n : Nat) :
    natToString n =
      if n = 0 then "0" else ((Nat.digits 10 n).reverse.map Nat.digitChar).asString := by
  unfold natToString
  by_cases h : n = 0
  · simp [h]
  · simp [h, natToStringAux_eq_digits n n (Nat.le_refl n)]

/-- The function `Nat.digitChar` is injective below 10. -/
lemma digitChar_injOn_lt_ten :
    ∀ a < 10, ∀ b < 10, Nat.digitChar a = Nat.digitChar b → a = b := by decide

/-- Decimal digit characters are never an underscore. -/
lemma digitChar_ne_underscore : ∀ a < 10, Nat.digitChar a ≠ '_' := by decide

/-- Mapping `Nat.digitChar` over lists of digits below 10 is injective. -/
lemma map_digitChar_inj : ∀ l1 l2 : List Nat, (∀ d ∈ l1, d < 10) → (∀ d ∈ l2, d < 10) →
    l1.map Nat.digitChar = l2.map Nat.digitChar → l1 = l2 := by
  intro l1
  induction l1 with
  | nil =>
    intro l2 _ _ h
    cases l2 with
    | nil => rfl
    | cons b t => simp at h
  | cons a t ih =>
    intro l2 h1 h2 h
    cases l2 with
    | nil => simp at h
    | cons b t2 =>
      simp only [List.map_cons, List.cons.injEq] at h
      have hab : a = b :=
        digitChar_injOn_lt_ten a (h1 a (by simp)) b (h2 b (by simp)) h.1
      have ht : t = t2 :=
        ih t2 (fun d hd => h1 d (by simp [hd])) (fun d hd => h2 d (by simp [hd])) h.2
      rw [hab, ht]

/-- The decimal rendering of a natural number is injective. -/
lemma natToString_inj {n m : Nat} (h : natToString n = natToString m) : n = m := by
  rw [natToString_eq, natToString_eq] at h
  by_cases hn : n = 0 <;> by_cases hm : m = 0 <;> simp [hn, hm] at h ⊢
  · exfalso
    have h2 : ((Nat.digits 10 m).reverse.map Nat.digitChar) = ['0'] := by
      have := congrArg String.data h
      simpa [List.asString] using this.symm
    have h3 : Nat.digits 10 m = [0] := by
      have h4 : (Nat.digits 10 m).reverse = [0] := by
        apply map_digitChar_inj
        · intro d hd
          exact Nat.digits_lt_base (by norm_num) (List.mem_reverse.mp hd)
        · intro d hd
          simp at hd
          omega
        · simpa using h2
      simpa using congrArg List.reverse h4
    have h5 := Nat.ofDigits_digits 10 m
    rw [h3] at h5
    simp [Nat.ofDigits] at h5
    exact hm h5.symm
  · exfalso
    have h2 : ((Nat.digits 10 n).reverse.map Nat.digitChar) = ['0'] := by
      have := congrArg String.data h
      simpa [List.asString] using this
    have h3 : Nat.digits 10 n = [0] := by
      have h4 : (Nat.digits 10 n).reverse = [0] := by
        apply map_digitChar_inj
        · intro d hd
          exact Nat.digits_lt_base (by norm_num) (List.mem_reverse.mp hd)
        · intro d hd
          simp at hd
          omega
        · simpa using h2
      simpa using congrArg List.reverse h4
    have h5 := Nat.ofDigits_digits 10 n
    rw [h3] at h5
    simp [Nat.ofDigits] at h5
    exact hn h5.symm
  · have h4 : Nat.digits 10 n = Nat.digits 10 m := by
      apply map_digitChar_inj _ _ _ _ h
      · intro d hd
        exact Nat.digits_lt_base (by norm_num) hd
      · intro d hd
        exact Nat.digits_lt_base (by norm_num) hd
    have h5 := Nat.ofDigits_digits 10 n
    rw [h4, Nat.ofDigits_digits] at h5
    exact h5.symm

/-- No character of a decimal rendering is an underscore. -/
lemma natToString_no_underscore (n : Nat) : '_' ∉ (natToString n).data := by
  rw [natToString_eq]
  by_cases hn : n = 0
  · intro hmem
    simp [hn] at hmem
  · simp only [hn, if_false]
    intro hmem
    rw [List.asString] at hmem
    simp only [List.mem_map] at hmem
    obtain ⟨d, hd, hchar⟩ := hmem
    exact digitChar_ne_underscore d
      (Nat.digits_lt_base (by norm_num) (List.mem_reverse.mp hd)) hchar

/-- C1 (code bug): with `baseDelayMs = 100` and a first failure carrying
`retryAfterMs = 5000`, `withRetry` reports `delayMs = 100` to the
observer and sleeps `100` ms — the computed exponential-backoff delay —
not the provider-specified `5000` ms: the `retryAfterMs` field is never
consulted by the loop in `src/model/retry.ts`, contradicting both the
specification and the repository's own unit test. -/
theorem withRetry_ignores_provider_retryAfterMs :
    (withRetry id opRateLimitedWithHint 3 100 10000 false).retries =
      [⟨1, 3, 100, .RATE_LIMITED, "Rate limited"⟩] ∧
    (withRetry id opRateLimitedWithHint 3 100 10000 false).sleeps = [100] ∧
    (100 : Nat) ≠ 5000 := by
  refine ⟨?_, ?_, by decide⟩ <;> decide

/-- The accumulation loop of `loadContexts` appends exactly the
successfully loaded files, in order. -/
lemma loadContextsLoop_eq (io : ContextIO) :
    ∀ (filepaths : List String) (acc : List StoredContext),
      loadContextsLoop io filepaths acc =
        acc ++ filepaths.filterMap (fun filepath =>
          if io.pathExists filepath then (io.readFile filepath).bind io.parseJson
          else none) := by
  intro filepaths
  induction filepaths with
  | nil => intro acc; simp [loadContextsLoop]
  | cons fp rest ih =>
    intro acc
    by_cases hfp : (if io.pathExists fp then (io.readFile fp).bind io.parseJson
        else none) = none
    · simp [loadContextsLoop, hfp, ih]
    · obtain ⟨ctx, hctx⟩ := Option.ne_none_iff_exists.mp hfp
      simp [loadContextsLoop, ← hctx, ih]

/-- C7: `loadContexts` never throws: it returns, as a total function, the
parsed contents of exactly those files that exist and whose read and
parse succeed, in input order, silently skipping every missing or
malformed file. -/
theorem loadContexts_spec (io : ContextIO) (filepaths : List String) :
    loadContexts io filepaths =
      filepaths.filterMap (fun filepath =>
        if io.pathExists filepath then (io.readFile filepath).bind io.parseJson
        else none) := by
  simpa using loadContextsLoop_eq io filepaths []

/-- Splitting a character list at an underscore separator is unambiguous
when neither prefix contains an underscore. -/
lemma append_underscore_split :
    ∀ (x1 x2 y1 y2 : List Char), '_' ∉ x1 → '_' ∉ x2 →
      x1 ++ '_' :: y1 = x2 ++ '_' :: y2 → x1 = x2 ∧ y1 = y2 := by
  intro x1
  induction x1 with
  | nil =>
    intro x2 y1 y2 _ h2 h
    cases x2 with
    | nil => simpa using h
    | cons b t =>
      exfalso
      simp only [List.nil_append, List.cons_append, List.cons.injEq] at h
      exact h2 (by simp [← h.1])
  | cons a t1 ih =>
    intro x2 y1 y2 h1 h2 h
    cases x2 with
    | nil =>
      exfalso
      simp only [List.nil_append, List.cons_append, List.cons.injEq] at h
      exact h1 (by simp [h.1])
    | cons b t2 =>
      simp only [List.cons_append, List.cons.injEq] at h
      obtain ⟨ht, hy⟩ := ih t2 y1 y2 (fun hm => h1 (List.mem_cons_of_mem a hm))
        (fun hm => h2 (List.mem_cons_of_mem b hm)) h.2
      exact ⟨by rw [h.1, ht], hy⟩

/-- Filenames generated for the same tool, arguments and timestamp but
different counter values are distinct, whatever the random suffixes. -/
lemma generateFilename_counter_injective (stringify : Args → String) (toolName : String)
    (args : Args) (t c1 c2 : Nat) (r1 r2 : String)
    (h : generateFilename stringify toolName args t c1 r1 =
         generateFilename stringify toolName args t c2 r2) : c1 = c2 := by
  unfold generateFilename at h
  generalize hashArgs stringify args = H at h
  generalize sanitizeToolName toolName = A at h
  have hd := congrArg String.data h
  have hu : "_".data = ['_'] := rfl
  simp only [String.data_append, hu, List.append_assoc, List.singleton_append] at hd
  have h1 := List.append_cancel_left hd
  have h2 := (List.cons.inj h1).2
  have h3 := List.append_cancel_left h2
  have h4 := (List.cons.inj h3).2
  have h5 := List.append_cancel_left h4
  have h6 := (List.cons.inj h5).2
  have hx := (append_underscore_split _ _ _ _ (natToString_no_underscore c1)
    (natToString_no_underscore c2) h6).1
  exact natToString_inj (String.ext hx)

/-- Looking up a key other than `k2` is unaffected by filtering out the
entries with key `k2`. -/
lemma lookup_filter_ne {α : Type} (k1 k2 : String) (h : k1 ≠ k2) :
    ∀ files : List (String × α),
      List.lookup k1 (files.filter (fun kv => !(kv.1 == k2))) = List.lookup k1 files := by
  intro files
  induction files with
  | nil => rfl
  | cons kv rest ih =>
    by_cases hk : kv.1 = k2
    · have hne : (k1 == kv.1) = false := by simp [hk, h]
      simp [List.filter_cons, hk, List.lookup, hne, ih,
        show (k1 == k2) = false by simp [h]]
    · cases hbe : (k1 == kv.1) with
      | true => simp [List.filter_cons, hk, List.lookup, hbe]
      | false => simp [List.filter_cons, hk, List.lookup, hbe, ih]

/-- Writing at key `k` binds `k`. -/
lemma lookup_setEntry_self {α : Type} (files : List (String × α)) (k : String) (v : α) :
    List.lookup k (setEntry files k v) = some v := by
  simp [setEntry, List.lookup]

/-- Writing at key `k2` leaves every other key unchanged. -/
lemma lookup_setEntry_ne {α : Type} (files : List (String × α)) (k1 k2 : String) (v : α)
    (h : k1 ≠ k2) : List.lookup k1 (setEntry files k2 v) = List.lookup k1 files := by
  have hne : (k1 == k2) = false := by simp [h]
  simp only [setEntry, List.lookup, hne]
  exact lookup_filter_ne k1 k2 h files

/-- C6: two `saveContext` calls on the same manager with the same tool
name and identical arguments — even in the same millisecond (`now`) and
whatever random suffixes are drawn — return distinct filepaths, and the
second save leaves the file written by the first untouched: the counter
component of the generated filename differs. -/
theorem saveContext_same_millisecond_no_overwrite
    (stringify : Args → String) (contextDir toolName : String) (args : Args)
    (result : JsValue) (taskId : Option Nat) (queryId : Option String)
    (now : Nat) (nowISO : String) (r1 r2 : String) (s : ContextManagerState) :
    (saveContext stringify contextDir toolName args result taskId queryId
        now nowISO r1 s).1 ≠
      (saveContext stringify contextDir toolName args result taskId queryId now nowISO r2
        (saveContext stringify contextDir toolName args result taskId queryId
          now nowISO r1 s).2).1 ∧
    List.lookup
      (saveContext stringify contextDir toolName args result taskId queryId
        now nowISO r1 s).1
      (saveContext stringify contextDir toolName args result taskId queryId now nowISO r2
        (saveContext stringify contextDir toolName args result taskId queryId
          now nowISO r1 s).2).2.files =
      some ⟨toolName, getToolDescription toolName args, args, nowISO, taskId, queryId,
        result⟩ := by
  have hfn : generateFilename stringify toolName args now s.filenameCounter r1 ≠
      generateFilename stringify toolName args now (s.filenameCounter + 1) r2 := by
    intro h
    have := generateFilename_counter_injective stringify toolName args now
      s.filenameCounter (s.filenameCounter + 1) r1 r2 h
    omega
  have hfp : contextDir ++ "/" ++
      generateFilename stringify toolName args now s.filenameCounter r1 ≠
      contextDir ++ "/" ++
      generateFilename stringify toolName args now (s.filenameCounter + 1) r2 := by
    intro h
    apply hfn
    apply String.ext
    generalize generateFilename stringify toolName args now s.filenameCounter r1 = G1 at h ⊢
    generalize generateFilename stringify toolName args now (s.filenameCounter + 1) r2 = G2
      at h ⊢
    have hd := congrArg String.data h
    simp only [String.data_append, List.append_assoc] at hd
    exact List.append_cancel_left (List.append_cancel_left hd)
  refine ⟨hfp, ?_⟩
  show List.lookup _ (setEntry (setEntry s.files _ _) _ _) = _
  have e1 : (saveContext stringify contextDir toolName args result taskId queryId
      now nowISO r1 s).1 =
      contextDir ++ "/" ++ generateFilename stringify toolName args now s.filenameCounter r1 :=
    rfl
  have e2 : (saveContext stringify contextDir toolName args result taskId queryId
      now nowISO r1 s).2.filenameCounter = s.filenameCounter + 1 := rfl
  rw [e1, e2, lookup_setEntry_ne _ _ _ _ hfp, lookup_setEntry_self]

/-- Case characterisation of `selectRelevantContexts` (definitional). -/
lemma selectRelevantContexts_eq_cases (query : String) (ps : List ContextPointer) :
    selectRelevantContexts query ps =
      if ps.length = 0 then []
      else if (extractKeywords query).length = 0 then ps.map (fun p => p.filepath)
      else if (matchesOf query ps).length = 0 then ps.map (fun p => p.filepath)
      else ((matchesOf query ps).mergeSort (fun a b => decide (b.2 ≤ a.2))).map
        (fun s => s.1.filepath) := rfl

/-- Every scored pair carries the relevance score of its pointer. -/
lemma mem_scoredOf_snd (query : String) (ps : List ContextPointer) :
    ∀ x ∈ scoredOf query ps, x.2 = pointerScore query x.1 := by
  intro x hx
  obtain ⟨p, _, rfl⟩ := List.mem_map.mp hx
  rfl

/-- C5: for every query and non-empty pointer list,
`selectRelevantContexts` never returns an empty list; when no pointer
scores above zero it returns the filepaths of all pointers in order; and
when some pointer scores above zero it returns the filepaths of exactly
the pointers with positive score, ordered by score descending. -/
theorem selectRelevantContexts_spec (query : String) (ps : List ContextPointer)
    (hne : ps ≠ []) :
    selectRelevantContexts query ps ≠ [] ∧
    ((∀ p ∈ ps, pointerScore query p = 0) →
      selectRelevantContexts query ps = ps.map (fun p => p.filepath)) ∧
    ((∃ p ∈ ps, 0 < pointerScore query p) →
      ∃ ms : List ContextPointer,
        ms.Perm (ps.filter (fun p => decide (0 < pointerScore query p))) ∧
        ms.Pairwise (fun a b => pointerScore query b ≤ pointerScore query a) ∧
        selectRelevantContexts query ps = ms.map (fun p => p.filepath)) := by
  have hlen : ¬ (ps.length = 0) := by simpa [List.length_eq_zero] using hne
  by_cases hqk : (extractKeywords query).length = 0
  · have hres : selectRelevantContexts query ps = ps.map (fun p => p.filepath) := by
      rw [selectRelevantContexts_eq_cases, if_neg hlen, if_pos hqk]
    have hzero : ∀ p ∈ ps, pointerScore query p = 0 := by
      intro p _
      have hnil : extractKeywords query = [] := List.length_eq_zero.mp hqk
      simp [pointerScore, keywordScore, hnil]
    refine ⟨by rw [hres]; simpa using hne, fun _ => hres, ?_⟩
    rintro ⟨p, hp, hpos⟩
    rw [hzero p hp] at hpos
    omega
  · by_cases hm : (matchesOf query ps).length = 0
    · have hres : selectRelevantContexts query ps = ps.map (fun p => p.filepath) := by
        rw [selectRelevantContexts_eq_cases, if_neg hlen, if_neg hqk, if_pos hm]
      have hempty : matchesOf query ps = [] := List.length_eq_zero.mp hm
      refine ⟨by rw [hres]; simpa using hne, fun _ => hres, ?_⟩
      rintro ⟨p, hp, hpos⟩
      exfalso
      have hmem : (p, pointerScore query p) ∈ scoredOf query ps := by
        have := List.mem_map_of_mem
          (fun pointer =>
            (pointer, keywordScore (extractKeywords query) pointer.toolDescription)) hp
        exact this
      have hin : (p, pointerScore query p) ∈ matchesOf query ps := by
        rw [matchesOf, List.mem_filter]
        exact ⟨hmem, by simpa using hpos⟩
      rw [hempty] at hin
      exact List.not_mem_nil _ hin
    · have hres : selectRelevantContexts query ps =
          ((matchesOf query ps).mergeSort (fun a b => decide (b.2 ≤ a.2))).map
            (fun s => s.1.filepath) := by
        rw [selectRelevantContexts_eq_cases, if_neg hlen, if_neg hqk, if_neg hm]
      have hperm : ((matchesOf query ps).mergeSort (fun a b => decide (b.2 ≤ a.2))).Perm
          (matchesOf query ps) := List.mergeSort_perm _ _
      refine ⟨?_, ?_, ?_⟩
      · rw [hres]
        intro hnil
        apply hm
        have := congrArg List.length hnil
        simpa using this
      · intro hz
        exfalso
        apply hm
        rw [matchesOf, List.length_eq_zero]
        apply List.filter_eq_nil_iff.mpr
        intro x hx
        have := mem_scoredOf_snd query ps x hx
        obtain ⟨p, hp, rfl⟩ := List.mem_map.mp hx
        simp [hz p hp] at this ⊢
        omega
      · intro _
        refine ⟨((matchesOf query ps).mergeSort (fun a b => decide (b.2 ≤ a.2))).map
          (fun s => s.1), ?_, ?_, ?_⟩
        · have h1 := hperm.map (fun s : ContextPointer × Nat => s.1)
          have h2 : (matchesOf query ps).map (fun s => s.1) =
              ps.filter (fun p => decide (0 < pointerScore query p)) := by
            rw [matchesOf, scoredOf, List.filter_map, List.map_map]
            rw [show ((fun s : ContextPointer × Nat => decide (0 < s.2)) ∘
                fun pointer : ContextPointer =>
                  (pointer, keywordScore (extractKeywords query) pointer.toolDescription)) =
              (fun p : ContextPointer => decide (0 < pointerScore query p)) from rfl]
            rw [show ((fun s : ContextPointer × Nat => s.1) ∘
                fun pointer : ContextPointer =>
                  (pointer, keywordScore (extractKeywords query) pointer.toolDescription)) =
              id from rfl]
            exact List.map_id _
          rw [h2] at h1
          exact h1
        · have hsorted : ((matchesOf query ps).mergeSort
              (fun a b => decide (b.2 ≤ a.2))).Pairwise
              (fun a b => decide (b.2 ≤ a.2) = true) := by
            apply List.sorted_mergeSort
            · intro a b c hab hbc
              simp only [decide_eq_true_eq] at hab hbc ⊢
              omega
            · intro a b
              simp only [Bool.or_eq_true, decide_eq_true_eq]
              omega
          rw [List.pairwise_map]
          have hx2 : ∀ x ∈ (matchesOf query ps).mergeSort (fun a b => decide (b.2 ≤ a.2)),
              x.2 = pointerScore query x.1 := by
            intro x hx
            have hx' : x ∈ matchesOf query ps := List.mem_mergeSort.mp hx
            exact mem_scoredOf_snd query ps x (List.mem_of_mem_filter hx')
          refine List.Pairwise.imp_of_mem ?_ hsorted
          intro a b ha hb hab
          have hle : b.2 ≤ a.2 := of_decide_eq_true hab
          rw [hx2 a ha, hx2 b hb] at hle
          exact hle
        · rw [hres, List.map_map]
          rfl

/-- C2: `resolveWorkspacePathSafe` returns `PERMISSION_DENIED` for every
input path containing a `..` segment (whatever the path and filesystem
semantics), and for every existing path whose real path after following
symlinks is not a prefix-match of the real workspace root. -/
theorem resolveWorkspacePathSafe_rejections (po : PathOps) (fs : FsOps) (fuel : Nat)
    (relativePath workspace : String) (requireExists : Bool) :
    ((((splitOnPred (fun c => c == '/' || c == '\\') relativePath.data).map
        List.asString).contains ".." = true →
      ∃ msg, resolveWorkspacePathSafe po fs fuel relativePath workspace requireExists =
        .error ⟨.PERMISSION_DENIED, msg⟩)) ∧
    (∀ basicResult realPath,
      resolveWorkspacePath po relativePath workspace = .ok basicResult →
      fs.realpath basicResult = some realPath →
      strStartsWith realPath (realWorkspaceOf po fs workspace ++ po.sep) = false →
      realPath ≠ realWorkspaceOf po fs workspace →
      ∃ msg, resolveWorkspacePathSafe po fs fuel relativePath workspace requireExists =
        .error ⟨.PERMISSION_DENIED, msg⟩) := by
  constructor
  · intro hdots
    refine ⟨"Path contains .. component: " ++ relativePath ++
      ". Path traversal is not allowed.", ?_⟩
    have hmem : ".." ∈ (splitOnPred (fun c => c == '/' || c == '\\')
        relativePath.data).map List.asString := by
      simpa using hdots
    simp [resolveWorkspacePathSafe, resolveWorkspacePath, hmem]
  · intro basicResult realPath hbasic hreal hsw hne
    refine ⟨"Symlink resolves outside workspace: " ++ relativePath, ?_⟩
    simp [resolveWorkspacePathSafe, hbasic, hreal, hsw, hne]

/-- Filtering out the entries at key `p` removes `p` from the lookup. -/
lemma lookup_filter_self {α : Type} (p : String) :
    ∀ l : List (String × α), List.lookup p (l.filter (fun kv => !(kv.1 == p))) = none := by
  intro l
  induction l with
  | nil => rfl
  | cons kv rest ih =>
    by_cases hk : kv.1 = p
    · simp [List.filter_cons, hk, ih]
    · have hne : (p == kv.1) = false := by
        simp
        exact fun h => hk h.symm
      simp [List.filter_cons, hk, List.lookup, hne, ih]

/-- C10 (amended): the write tool's `execute` throws without touching
the filesystem when writes are disabled, when the content exceeds
`DEFAULT_MAX_WRITE_BYTES` (1,048,576 bytes), or when path validation
fails; and on a failed rename it throws and leaves the target path
exactly as before the call — whatever the ignored cleanup does — and
removes the temporary file whenever the cleanup `fs.unlink` call itself
succeeds. -/
theorem writeToolExecute_failure_safety (env : WriteEnv) (fs : WriteFs)
    (filePath content : String) :
    (env.writesEnabled = false →
      ∃ m, writeToolExecute env fs filePath content = (.thrown m, fs)) ∧
    (env.writesEnabled = true → content.utf8ByteSize > DEFAULT_MAX_WRITE_BYTES →
      ∃ m, writeToolExecute env fs filePath content = (.thrown m, fs)) ∧
    (∀ e, env.writesEnabled = true → content.utf8ByteSize ≤ DEFAULT_MAX_WRITE_BYTES →
      env.resolvePath filePath = .error e →
      writeToolExecute env fs filePath content = (.thrown e.message, fs)) ∧
    (∀ resolved, env.writesEnabled = true →
      content.utf8ByteSize ≤ DEFAULT_MAX_WRITE_BYTES →
      env.resolvePath filePath = .ok resolved →
      env.renameOk = false →
      tempPathOf env resolved ≠ resolved →
      (∃ m, (writeToolExecute env fs filePath content).1 = .thrown m) ∧
      List.lookup resolved (writeToolExecute env fs filePath content).2.files =
        List.lookup resolved fs.files ∧
      (env.unlinkOk = true →
        List.lookup (tempPathOf env resolved)
          (writeToolExecute env fs filePath content).2.files = none)) := by
  refine ⟨?_, ?_, ?_, ?_⟩
  · intro hw
    refine ⟨"Filesystem writes are disabled. Set AGENT_FILESYSTEM_WRITES_ENABLED=true or update config.", ?_⟩
    simp [writeToolExecute, hw]
  · intro hw hsize
    refine ⟨"Content size (" ++ natToString content.utf8ByteSize ++
      " bytes) exceeds max write limit (" ++ natToString DEFAULT_MAX_WRITE_BYTES ++
      " bytes)", ?_⟩
    simp [writeToolExecute, hw, hsize]
  · intro e hw hsize hres
    have hgt : ¬ (content.utf8ByteSize > DEFAULT_MAX_WRITE_BYTES) := by omega
    simp [writeToolExecute, hw, hgt, hres]
  · intro resolved hw hsize hres hrn htmp
    have hgt : ¬ (content.utf8ByteSize > DEFAULT_MAX_WRITE_BYTES) := by omega
    by_cases hu : env.unlinkOk
    · have heq : writeToolExecute env fs filePath content =
          (.thrown ("Failed to write file: " ++ filePath),
           ⟨removeFile (setEntry fs.files (tempPathOf env resolved) content)
              (tempPathOf env resolved),
            env.dirnameOf resolved :: fs.dirs⟩) := by
        simp [writeToolExecute, hw, hgt, hres, hrn, hu]
      refine ⟨⟨_, by rw [heq]⟩, ?_, ?_⟩
      · rw [heq]
        show List.lookup resolved
          (removeFile (setEntry fs.files (tempPathOf env resolved) content)
            (tempPathOf env resolved)) = _
        rw [removeFile, lookup_filter_ne resolved (tempPathOf env resolved) htmp.symm]
        exact lookup_setEntry_ne _ _ _ _ htmp.symm
      · intro _
        rw [heq]
        exact lookup_filter_self _ _
    · have heq : writeToolExecute env fs filePath content =
          (.thrown ("Failed to write file: " ++ filePath),
           ⟨setEntry fs.files (tempPathOf env resolved) content,
            env.dirnameOf resolved :: fs.dirs⟩) := by
        simp [writeToolExecute, hw, hgt, hres, hrn, hu]
      refine ⟨⟨_, by rw [heq]⟩, ?_, ?_⟩
      · rw [heq]
        show List.lookup resolved (setEntry fs.files (tempPathOf env resolved) content) = _
        exact lookup_setEntry_ne _ _ _ _ htmp.symm
      · intro hcontra
        exact absurd hcontra hu

namespace ContextAliasing

/-- The function `copyPointers` only ever appends to the heap: low reads are
preserved, the result is as long as the input plus one object per
pointer, and every returned pointer holds a fresh address. -/
lemma copyPointers_spec : ∀ (ps : List PointerRef) (h : Heap),
    (copyPointers h ps).2.length = h.length + ps.length ∧
    (∀ i, i < h.length → readHeap (copyPointers h ps).2 i = readHeap h i) ∧
    (∀ q ∈ (copyPointers h ps).1,
      h.length ≤ q.argsAddr ∧ q.argsAddr < (copyPointers h ps).2.length) := by
  intro ps
  induction ps with
  | nil =>
    intro h
    refine ⟨by simp [copyPointers], fun i _ => rfl, ?_⟩
    intro q hq
    simp [copyPointers] at hq
  | cons p rest ih =>
    intro h
    obtain ⟨ihlen, ihread, ihfresh⟩ := ih (h ++ [(readHeap h p.argsAddr).getD ⟨[]⟩])
    have hstep : copyPointers h (p :: rest) =
        ({ p with argsAddr := h.length } ::
          (copyPointers (h ++ [(readHeap h p.argsAddr).getD ⟨[]⟩]) rest).1,
         (copyPointers (h ++ [(readHeap h p.argsAddr).getD ⟨[]⟩]) rest).2) := by
      simp [copyPointers, allocCopy]
    rw [hstep]
    refine ⟨?_, ?_, ?_⟩
    · simp only [ihlen]
      simp
      omega
    · intro i hi
      rw [ihread i (by simp; omega)]
      show (h ++ [(readHeap h p.argsAddr).getD ⟨[]⟩])[i]? = h[i]?
      exact List.getElem?_append_left hi
    · intro q hq
      rcases List.mem_cons.mp hq with hq | hq
      · subst hq
        refine ⟨Nat.le_refl _, ?_⟩
        rw [ihlen]
        simp
        omega
      · obtain ⟨h1, h2⟩ := ihfresh q hq
        refine ⟨?_, h2⟩
        simp at h1
        omega

/-- C9: every pointer accessor of the context manager returns pointers
whose `args` objects are fresh copies — mutating any returned `args`
object leaves the `args` object of every stored pointer exactly as it
was — and `saveContext` stores a copy of the caller's `args` object, so
mutating the caller's object after the call leaves the stored copy
unchanged (and equal to the caller's object at save time). -/
theorem contextManager_pointer_copies (s : ManagerState) (qid : String) (tid : Nat)
    (tn td fp fn : String) (argsAddr : Nat) (taskId : Option Nat) (queryId : Option String)
    (wf : ∀ p ∈ s.pointers, p.argsAddr < s.heap.length)
    (hargs : argsAddr < s.heap.length) :
    (∀ q ∈ (getAllPointers s).1, ∀ v, ∀ p ∈ s.pointers,
      readHeap (writeHeap (getAllPointers s).2 q.argsAddr v) p.argsAddr =
        readHeap s.heap p.argsAddr) ∧
    (∀ q ∈ (getPointersForQuery qid s).1, ∀ v, ∀ p ∈ s.pointers,
      readHeap (writeHeap (getPointersForQuery qid s).2 q.argsAddr v) p.argsAddr =
        readHeap s.heap p.argsAddr) ∧
    (∀ q ∈ (getPointersForTask tid s).1, ∀ v, ∀ p ∈ s.pointers,
      readHeap (writeHeap (getPointersForTask tid s).2 q.argsAddr v) p.argsAddr =
        readHeap s.heap p.argsAddr) ∧
    ((saveContext tn td fp fn argsAddr taskId queryId s).pointers =
      s.pointers ++ [⟨fp, fn, tn, td, s.heap.length, taskId, queryId⟩] ∧
     s.heap.length ≠ argsAddr ∧
     ∀ v, readHeap
        (writeHeap (saveContext tn td fp fn argsAddr taskId queryId s).heap argsAddr v)
        s.heap.length = readHeap s.heap argsAddr) := by
  have haccess : ∀ sub : List PointerRef, (∀ p ∈ sub, p ∈ s.pointers) →
      ∀ q ∈ (copyPointers s.heap sub).1, ∀ v, ∀ p ∈ s.pointers,
        readHeap (writeHeap (copyPointers s.heap sub).2 q.argsAddr v) p.argsAddr =
          readHeap s.heap p.argsAddr := by
    intro sub _ q hq v p hp
    obtain ⟨hlen, hread, hfresh⟩ := copyPointers_spec sub s.heap
    have hqa := (hfresh q hq).1
    have hpa := wf p hp
    have hne : q.argsAddr ≠ p.argsAddr := by omega
    have h1 : readHeap (writeHeap (copyPointers s.heap sub).2 q.argsAddr v) p.argsAddr =
        readHeap (copyPointers s.heap sub).2 p.argsAddr := by
      show ((copyPointers s.heap sub).2.set q.argsAddr v)[p.argsAddr]? = _
      exact List.getElem?_set_ne hne
    rw [h1]
    exact hread p.argsAddr hpa
  refine ⟨haccess s.pointers (fun p hp => hp), ?_, ?_, ?_, ?_, ?_⟩
  · exact haccess _ (fun p hp => List.mem_of_mem_filter hp)
  · exact haccess _ (fun p hp => List.mem_of_mem_filter hp)
  · simp [saveContext, allocCopy]
  · omega
  · intro v
    have hcopy : (saveContext tn td fp fn argsAddr taskId queryId s).heap =
        s.heap ++ [(readHeap s.heap argsAddr).getD ⟨[]⟩] := by
      simp [saveContext, allocCopy]
    rw [hcopy]
    have h1 : readHeap (writeHeap (s.heap ++ [(readHeap s.heap argsAddr).getD ⟨[]⟩])
        argsAddr v) s.heap.length =
        readHeap (s.heap ++ [(readHeap s.heap argsAddr).getD ⟨[]⟩]) s.heap.length := by
      show ((s.heap ++ _).set argsAddr v)[s.heap.length]? = _
      exact List.getElem?_set_ne (by omega)
    rw [h1]
    show (s.heap ++ [(readHeap s.heap argsAddr).getD ⟨[]⟩])[s.heap.length]? = _
    rw [List.getElem?_concat_length]
    rw [show readHeap s.heap argsAddr = some (s.heap[argsAddr]) from
      List.getElem?_eq_getElem hargs]
    rfl

end ContextAliasing

/-- Witness for C5 at the query `read config file`: the selection is
non-empty and consists of the positively scored pointers sorted by
score. -/
theorem selectRelevantContexts_spec_witness :
    selectRelevantContexts "read config file" [wpConfig, wpShell] ≠ [] ∧
    (∃ ms : List ContextPointer,
      ms.Perm ([wpConfig, wpShell].filter
        (fun p => decide (0 < pointerScore "read config file" p))) ∧
      ms.Pairwise (fun a b =>
        pointerScore "read config file" b ≤ pointerScore "read config file" a) ∧
      selectRelevantContexts "read config file" [wpConfig, wpShell] =
        ms.map (fun p => p.filepath)) := by
  refine ⟨(selectRelevantContexts_spec "read config file" [wpConfig, wpShell]
      (by decide)).1,
    (selectRelevantContexts_spec "read config file" [wpConfig, wpShell]
      (by decide)).2.2 ⟨wpConfig, by decide, by decide⟩⟩

/-- Witness for C6: with a fixed timestamp and even an identical random
suffix drawn twice, two saves of the same tool call return distinct
filepaths. -/
theorem saveContext_same_millisecond_no_overwrite_witness :
    (saveContext (fun _ => "s") "/ctx" "read" [] (JsValue.str "r") none none 5 "t" "ab"
      ⟨[], 0, []⟩).1 ≠
    (saveContext (fun _ => "s") "/ctx" "read" [] (JsValue.str "r") none none 5 "t" "ab"
      (saveContext (fun _ => "s") "/ctx" "read" [] (JsValue.str "r") none none 5 "t" "ab"
        ⟨[], 0, []⟩).2).1 :=
  (saveContext_same_millisecond_no_overwrite (fun _ => "s") "/ctx" "read" []
    (JsValue.str "r") none none 5 "t" "ab" "ab" ⟨[], 0, []⟩).1

/-- Witness for C2: a traversal path `../etc/passwd` and a symlink
escaping to `/outside/secret` are both rejected with
`PERMISSION_DENIED`. -/
theorem resolveWorkspacePathSafe_rejections_witness :
    (∃ msg, resolveWorkspacePathSafe wPathOps wFsOps 8 "../etc/passwd" "/ws" false =
      .error ⟨.PERMISSION_DENIED, msg⟩) ∧
    (∃ msg, resolveWorkspacePathSafe wPathOps wFsOps 8 "link" "/ws" false =
      .error ⟨.PERMISSION_DENIED, msg⟩) := by
  constructor
  · exact (resolveWorkspacePathSafe_rejections wPathOps wFsOps 8 "../etc/passwd" "/ws"
      false).1 (by decide)
  · exact (resolveWorkspacePathSafe_rejections wPathOps wFsOps 8 "link" "/ws" false).2
      "/ws/link" "/outside/secret" rfl rfl (by decide) (by decide)

/-- Witness for C10: a disabled-writes call throws and leaves the
filesystem untouched, and a failed rename (with the cleanup unlink
succeeding) throws, preserves the target content and removes the
temporary file. -/
theorem writeToolExecute_failure_safety_witness :
    (∃ m, writeToolExecute wWriteEnvDisabled wWriteFs "a.txt" "hi" = (.thrown m, wWriteFs)) ∧
    ((∃ m, (writeToolExecute wWriteEnvRenameFails wWriteFs "a.txt" "hi").1 = .thrown m) ∧
     List.lookup "/ws/a.txt"
       (writeToolExecute wWriteEnvRenameFails wWriteFs "a.txt" "hi").2.files =
       List.lookup "/ws/a.txt" wWriteFs.files ∧
     List.lookup (tempPathOf wWriteEnvRenameFails "/ws/a.txt")
       (writeToolExecute wWriteEnvRenameFails wWriteFs "a.txt" "hi").2.files = none) := by
  have h := (writeToolExecute_failure_safety wWriteEnvRenameFails wWriteFs "a.txt"
    "hi").2.2.2 "/ws/a.txt" rfl (by decide) rfl rfl (by decide)
  exact ⟨(writeToolExecute_failure_safety wWriteEnvDisabled wWriteFs "a.txt" "hi").1 rfl,
    h.1, h.2.1, h.2.2 rfl⟩

/-- Counterexample for C10 as stated: when the rename fails and the
ignored cleanup `fs.unlink` fails as well, the call throws but the
temporary file persists on disk — the source (`write.ts`) catches and
ignores the unlink error, so removal of the temporary file is not
guaranteed. -/
theorem writeToolExecute_unlink_failure_persists :
    (∃ m, (writeToolExecute wWriteEnvUnlinkFails wWriteFs "a.txt" "hi").1 = .thrown m) ∧
    List.lookup (tempPathOf wWriteEnvUnlinkFails "/ws/a.txt")
      (writeToolExecute wWriteEnvUnlinkFails wWriteFs "a.txt" "hi").2.files =
      some "hi" ∧
    List.lookup "/ws/a.txt"
      (writeToolExecute wWriteEnvUnlinkFails wWriteFs "a.txt" "hi").2.files =
      List.lookup "/ws/a.txt" wWriteFs.files := by
  refine ⟨⟨"Failed to write file: " ++ "a.txt", by decide⟩, by decide, by decide⟩

/-- Witness for C9: overwriting the copy returned by `getAllPointers`
(at its fresh address 1) leaves the stored pointer's `args` object at
address 0 unchanged. -/
theorem contextManager_pointer_copies_witness :
    ContextAliasing.readHeap
      (ContextAliasing.writeHeap (ContextAliasing.getAllPointers wManagerState).2 1 ⟨[]⟩)
      0 = ContextAliasing.readHeap wManagerState.heap 0 := by
  have h := (ContextAliasing.contextManager_pointer_copies wManagerState "q" 1 "t" "d"
    "/ctx/g.json" "g.json" 0 none none (by decide) (by decide)).1
  exact h ⟨"/ctx/f.json", "f.json", "read", "read: x", 1, none, some "q"⟩ (by decide)
    ⟨[]⟩ ⟨"/ctx/f.json", "f.json", "read", "read: x", 0, none, some "q"⟩ (by decide)

end AgentBase
